import Mathlib

/-!
Verification of the book-store HTTP handlers in app/main.py.

The module-level Python dict `books` (integer id to string title) is
modelled as an insertion-ordered association list, which is how a Python
dict presents itself: iteration order is insertion order, and keys are
unique (the representation invariant `keysNodup` below).  Each HTTP
handler becomes a pure function from the current mapping to the new
mapping paired with the response body it returns.
-/

/-- The process-wide mapping from book id to title (the dict `books`). -/
abbrev Books := List (Int × String)

/-- Membership test for a key, as a Python dict key lookup sees it. -/
def hasKey : Books → Int → Bool
  | [], _ => false
  | p :: m, k => if p.1 = k then true else hasKey m k

/-- Python dict read with default, as in `books.get(book_id, default)`. -/
def dictGet : Books → Int → String → String
  | [], _, d => d
  | p :: m, k, d => if p.1 = k then p.2 else dictGet m k d

/-- Python dict write `books[book_id] = title`: overwrite the entry in
place when the key is present, otherwise append (dict insertion order). -/
def dictSet : Books → Int → String → Books
  | [], k, v => [(k, v)]
  | p :: m, k, v => if p.1 = k then (k, v) :: m else p :: dictSet m k v

/-- Removal effect of `books.pop(book_id, None)`: drop the entry for the
key when present, leave the mapping unchanged otherwise. -/
def dictPop : Books → Int → Books
  | [], _ => []
  | p :: m, k => if p.1 = k then m else p :: dictPop m k

/-- Observation of an entry: presence together with its title. -/
def dictFind : Books → Int → Option String
  | [], _ => none
  | p :: m, k => if p.1 = k then some p.2 else dictFind m k

/-- Representation invariant of a Python dict: keys are pairwise
distinct.  Every reachable state of the `books` dict satisfies it. -/
def keysNodup (m : Books) : Prop := (m.map Prod.fst).Nodup

instance (m : Books) : Decidable (keysNodup m) :=
  inferInstanceAs (Decidable (List.Nodup _))

/-- Response bodies the handlers can return. -/
inductive Resp
  | msg (message : String)
  | book (id : Int) (title : String)
  | listing (books : Books)
deriving DecidableEq, Repr

/-- Handler for GET /. -/
def root (books : Books) : Books × Resp :=
  (books, .msg "Hello from FastAPI CI/CD!")

/-- Handler for POST /books/book_id. -/
def create_book (books : Books) (book_id : Int) (title : String) : Books × Resp :=
  (dictSet books book_id title, .book book_id title)

/-- Handler for GET /books. -/
def list_books (books : Books) : Books × Resp :=
  (books, .listing books)

/-- Handler for GET /books/book_id. -/
def get_book (books : Books) (book_id : Int) : Books × Resp :=
  (books, .book book_id (dictGet books book_id "Not Found"))

/-- Handler for PUT /books/book_id. -/
def update_book (books : Books) (book_id : Int) (title : String) : Books × Resp :=
  (dictSet books book_id title, .book book_id title)

/-- Handler for DELETE /books/book_id. -/
def delete_book (books : Books) (book_id : Int) : Books × Resp :=
  (dictPop books book_id, .msg "Deleted")

/-- One request to any of the five routes, with its arguments. -/
inductive Op
  | rootReq
  | create (book_id : Int) (title : String)
  | list
  | get (book_id : Int)
  | update (book_id : Int) (title : String)
  | delete (book_id : Int)
deriving DecidableEq, Repr

/-- Dispatch a single request to its handler. -/
def runOp (m : Books) : Op → Books × Resp
  | .rootReq => root m
  | .create book_id title => create_book m book_id title
  | .list => list_books m
  | .get book_id => get_book m book_id
  | .update book_id title => update_book m book_id title
  | .delete book_id => delete_book m book_id

/-- Serve a sequence of requests, collecting the responses. -/
def runOps : Books → List Op → Books × List Resp
  | m, [] => (m, [])
  | m, op :: rest =>
    ((runOps (runOp m op).1 rest).1, (runOp m op).2 :: (runOps (runOp m op).1 rest).2)

/-- Fold of create_book over a list of (id, title) pairs. -/
def runCreates : Books → List (Int × String) → Books
  | m, [] => m
  | m, p :: rest => runCreates (create_book m p.1 p.2).1 rest

/-! Basic lemmas about the dict operations. -/

theorem hasKey_iff_mem (m : Books) (k : Int) :
    hasKey m k = true ↔ k ∈ m.map Prod.fst := by
  induction m with
  | nil => simp [hasKey]
  | cons p m ih =>
    by_cases h : p.1 = k
    · subst h
      simp [hasKey]
    · have h' : k ≠ p.1 := fun hk => h hk.symm
      simp [hasKey, h, h', ih]

theorem hasKey_eq_false_iff (m : Books) (k : Int) :
    hasKey m k = false ↔ k ∉ m.map Prod.fst := by
  rw [← hasKey_iff_mem]
  cases hasKey m k <;> simp

theorem dictGet_eq_default (m : Books) (k : Int) (d : String)
    (h : hasKey m k = false) : dictGet m k d = d := by
  induction m with
  | nil => simp [dictGet]
  | cons p m ih =>
    by_cases hp : p.1 = k
    · simp [hasKey, hp] at h
    · simp [hasKey, hp] at h
      simp [dictGet, hp, ih h]

theorem dictGet_dictSet_self (m : Books) (k : Int) (v d : String) :
    dictGet (dictSet m k v) k d = v := by
  induction m with
  | nil => simp [dictSet, dictGet]
  | cons p m ih =>
    by_cases h : p.1 = k
    · simp [dictSet, h, dictGet]
    · simp [dictSet, h, dictGet, ih]

theorem dictFind_dictSet_ne (m : Books) (k k' : Int) (v : String)
    (h : k' ≠ k) : dictFind (dictSet m k v) k' = dictFind m k' := by
  have h' : ¬ k = k' := fun hk => h hk.symm
  induction m with
  | nil => simp [dictSet, dictFind, h']
  | cons p m ih =>
    by_cases hp : p.1 = k
    · have hpk' : ¬ p.1 = k' := hp ▸ h'
      simp [dictSet, hp, dictFind, h', hpk']
    · by_cases hp' : p.1 = k' <;> simp [dictSet, hp, dictFind, hp', h, ih]

theorem dictFind_dictPop_ne (m : Books) (k k' : Int)
    (h : k' ≠ k) : dictFind (dictPop m k) k' = dictFind m k' := by
  have h' : ¬ k = k' := fun hk => h hk.symm
  induction m with
  | nil => simp [dictPop]
  | cons p m ih =>
    by_cases hp : p.1 = k
    · have hpk' : ¬ p.1 = k' := hp ▸ h'
      simp [dictPop, hp, dictFind, h', hpk']
    · by_cases hp' : p.1 = k' <;> simp [dictPop, hp, dictFind, hp', h, ih]

theorem hasKey_dictPop_self (m : Books) (k : Int)
    (hnd : keysNodup m) : hasKey (dictPop m k) k = false := by
  induction m with
  | nil => simp [dictPop, hasKey]
  | cons p m ih =>
    rw [keysNodup, List.map_cons, List.nodup_cons] at hnd
    by_cases hp : p.1 = k
    · simp only [dictPop, hp, if_pos rfl]
      exact (hasKey_eq_false_iff m k).mpr (hp ▸ hnd.1)
    · simp [dictPop, hp, hasKey, ih hnd.2]

theorem dictGet_dictPop_self (m : Books) (k : Int) (d : String)
    (hnd : keysNodup m) : dictGet (dictPop m k) k d = d :=
  dictGet_eq_default _ _ _ (hasKey_dictPop_self m k hnd)

theorem dictSet_eq_append (m : Books) (k : Int) (v : String)
    (h : hasKey m k = false) : dictSet m k v = m ++ [(k, v)] := by
  induction m with
  | nil => simp [dictSet]
  | cons p m ih =>
    by_cases hp : p.1 = k
    · simp [hasKey, hp] at h
    · simp [hasKey, hp] at h
      simp [dictSet, hp, ih h]

theorem hasKey_append (m m' : Books) (k : Int) :
    hasKey (m ++ m') k = (hasKey m k || hasKey m' k) := by
  induction m with
  | nil => simp [hasKey]
  | cons p m ih =>
    by_cases hp : p.1 = k <;> simp [hasKey, hp, ih]

theorem runCreates_eq_append (ps : List (Int × String)) :
    ∀ m : Books, (∀ k ∈ ps.map Prod.fst, hasKey m k = false) →
    (ps.map Prod.fst).Nodup → runCreates m ps = m ++ ps := by
  induction ps with
  | nil => intro m _ _; simp [runCreates]
  | cons p rest ih =>
    intro m hd hnd
    rw [List.map_cons, List.nodup_cons] at hnd
    have hk : hasKey m p.1 = false := hd p.1 (by simp)
    have hstep : (create_book m p.1 p.2).1 = m ++ [(p.1, p.2)] := by
      simp [create_book, dictSet_eq_append m p.1 p.2 hk]
    have hd' : ∀ k ∈ rest.map Prod.fst, hasKey (m ++ [(p.1, p.2)]) k = false := by
      intro k hkmem
      have h1 : hasKey m k = false := hd k (by simp [hkmem])
      have h2 : hasKey [(p.1, p.2)] k = false := by
        have : ¬ p.1 = k := fun he => hnd.1 (he ▸ hkmem)
        simp [hasKey, this]
      simp [hasKey_append, h1, h2]
    calc runCreates m (p :: rest)
        = runCreates (m ++ [(p.1, p.2)]) rest := by rw [runCreates, hstep]
      _ = (m ++ [(p.1, p.2)]) ++ rest := ih _ hd' hnd.2
      _ = m ++ (p :: rest) := by simp

/-! Claim theorems. -/

/-- C1: after create_book(id, t) on any mapping state, get_book(id)
returns a response whose title field is t. -/
theorem create_then_get_returns_title (m : Books) (book_id : Int) (t : String) :
    (get_book (create_book m book_id t).1 book_id).2 = Resp.book book_id t := by
  simp [create_book, get_book, dictGet_dictSet_self]

/-- C2: create_book(id, t1) then update_book(id, t2) makes get_book(id)
return title t2 (last write wins). -/
theorem create_update_get_last_write_wins (m : Books) (book_id : Int) (t1 t2 : String) :
    (get_book (update_book (create_book m book_id t1).1 book_id t2).1 book_id).2 =
      Resp.book book_id t2 := by
  simp [create_book, update_book, get_book, dictGet_dictSet_self]

/-- C3: when id is not a key of the mapping, get_book(id) returns the
requested id with the placeholder title, not an error. -/
theorem get_absent_returns_not_found (m : Books) (book_id : Int)
    (h : hasKey m book_id = false) :
    (get_book m book_id).2 = Resp.book book_id "Not Found" := by
  simp [get_book, dictGet_eq_default m book_id _ h]

/-- C3 witness: a concrete absent key. -/
theorem get_absent_returns_not_found_at_2 :
    hasKey [((1 : Int), "Dune")] 2 = false ∧
    (get_book [((1 : Int), "Dune")] 2).2 = Resp.book 2 "Not Found" :=
  ⟨by decide, get_absent_returns_not_found [((1 : Int), "Dune")] 2 (by decide)⟩

/-- C4: delete_book(id) followed by get_book(id) yields the placeholder
title, whether or not id was present; keysNodup is the unique-key
representation invariant every Python dict state satisfies. -/
theorem delete_then_get_returns_not_found (m : Books) (book_id : Int)
    (hnd : keysNodup m) :
    (get_book (delete_book m book_id).1 book_id).2 = Resp.book book_id "Not Found" := by
  simp [delete_book, get_book, dictGet_dictPop_self m book_id _ hnd]

/-- C4 witness: deleting a present key, then reading it. -/
theorem delete_then_get_returns_not_found_at_1 :
    keysNodup [((1 : Int), "Dune")] ∧
    (get_book (delete_book [((1 : Int), "Dune")] 1).1 1).2 = Resp.book 1 "Not Found" :=
  ⟨by decide, delete_then_get_returns_not_found [((1 : Int), "Dune")] 1 (by decide)⟩

/-- C5: update_book and create_book are the same transformation, both
setting the entry unconditionally and returning the id with the title. -/
theorem update_book_eq_create_book (m : Books) (book_id : Int) (t : String) :
    update_book m book_id t = create_book m book_id t ∧
    create_book m book_id t = (dictSet m book_id t, Resp.book book_id t) :=
  ⟨rfl, rfl⟩

/-- C6: delete_book removes the entry for id when present, succeeds when
absent, and always answers with the fixed confirmation message. -/
theorem delete_book_removes_and_confirms (m : Books) (book_id : Int)
    (hnd : keysNodup m) :
    (delete_book m book_id).2 = Resp.msg "Deleted" ∧
    hasKey (delete_book m book_id).1 book_id = false :=
  ⟨rfl, hasKey_dictPop_self m book_id hnd⟩

/-- C6 witness: deleting an absent key still confirms and leaves the key
absent. -/
theorem delete_book_removes_and_confirms_at_2 :
    keysNodup [((1 : Int), "Dune")] ∧
    ((delete_book [((1 : Int), "Dune")] 2).2 = Resp.msg "Deleted" ∧
     hasKey (delete_book [((1 : Int), "Dune")] 2).1 2 = false) :=
  ⟨by decide, delete_book_removes_and_confirms [((1 : Int), "Dune")] 2 (by decide)⟩

/-- C7: from the empty mapping, a sequence of create_book calls with
pairwise distinct ids makes list_books return exactly those entries. -/
theorem list_books_after_distinct_creates (ps : List (Int × String))
    (hnd : (ps.map Prod.fst).Nodup) :
    (list_books (runCreates [] ps)).2 = Resp.listing ps := by
  have h := runCreates_eq_append ps [] (by intro k _; simp [hasKey]) hnd
  simp [list_books, h]

/-- C7 witness: two distinct creations are listed exactly. -/
theorem list_books_after_distinct_creates_at_pair :
    (([((1 : Int), "Dune"), ((2 : Int), "Emma")].map Prod.fst).Nodup) ∧
    (list_books (runCreates [] [((1 : Int), "Dune"), ((2 : Int), "Emma")])).2 =
      Resp.listing [((1 : Int), "Dune"), ((2 : Int), "Emma")] :=
  ⟨by decide, list_books_after_distinct_creates _ (by decide)⟩

/-- C8: every request in any sequence completes and contributes exactly
one response; no operation signals a domain-level error. -/
theorem runOps_total_one_response_per_op (m : Books) (ops : List Op) :
    ((runOps m ops).2).length = ops.length := by
  induction ops generalizing m with
  | nil => simp [runOps]
  | cons op rest ih => simp [runOps, ih]

/-- C9: root always returns the fixed greeting and leaves the mapping
unchanged. -/
theorem root_fixed_greeting_no_effect (m : Books) :
    root m = (m, Resp.msg "Hello from FastAPI CI/CD!") :=
  rfl

/-- C10: create_book, update_book and delete_book leave every other
key's entry (presence and title) unchanged. -/
theorem writes_frame_other_keys (m : Books) (book_id : Int) (t : String)
    (k' : Int) (h : k' ≠ book_id) :
    dictFind (create_book m book_id t).1 k' = dictFind m k' ∧
    dictFind (update_book m book_id t).1 k' = dictFind m k' ∧
    dictFind (delete_book m book_id).1 k' = dictFind m k' :=
  ⟨dictFind_dictSet_ne m book_id k' t h,
   dictFind_dictSet_ne m book_id k' t h,
   dictFind_dictPop_ne m book_id k' h⟩

/-- C10 witness: key 2 is untouched by writes to key 1. -/
theorem writes_frame_other_keys_at_2 :
    ((2 : Int) ≠ 1) ∧
    (dictFind (create_book [((2 : Int), "Emma")] 1 "Dune").1 2 = dictFind [((2 : Int), "Emma")] 2 ∧
     dictFind (update_book [((2 : Int), "Emma")] 1 "Dune").1 2 = dictFind [((2 : Int), "Emma")] 2 ∧
     dictFind (delete_book [((2 : Int), "Emma")] 1).1 2 = dictFind [((2 : Int), "Emma")] 2) :=
  ⟨by decide, writes_frame_other_keys [((2 : Int), "Emma")] 1 "Dune" 2 (by decide)⟩
